import Mathlib

/-!
# Verification of the tiered, instrumented cache abstraction

Shallow embedding of the cache subsystem wired together by the composition
root `apps/api/src/pkg/global.ts`.  The composition root itself (namespace
registry, freshness constants, tier wiring, `init`) is embedded directly from
the source.  The cache core it imports (`TieredCache`, `MemoryCache`,
`ZoneCache`, `CacheWithMetrics`, `CacheWithTracing`) is not part of the
given sources, so those components are modelled from the specification's
component contracts (spec sections 3, 4.1 to 4.4, 5 and 7).

Keys are namespaced: a logical cache key is the pair of a namespace name and
a key string, modelled as `NsKey`.
-/

/-- A namespaced cache key: the `(namespace, key)` pair used by every tier
operation and by the refresh-coalescing registry. -/
structure NsKey where
  ns : String
  key : String
deriving DecidableEq, Repr

/-- Modelled from the spec: a cache entry `{ value, storedAt }` (spec section 3,
"Cache Entry").  The absent-marker case is represented by the store simply not
holding the key. -/
structure Entry (V : Type) where
  value : V
  storedAt : Nat
deriving DecidableEq, Repr

/-- Freshness/staleness configuration handed to each tier
(`{ fresh, stale }` in `global.ts`). -/
structure CacheConfig where
  fresh : Nat
  stale : Nat
deriving DecidableEq, Repr

/-- `const fresh = 1 * 60 * 1000` (global.ts line 53). -/
def fresh : Nat := 1 * 60 * 1000

/-- `const stale = 24 * 60 * 60 * 1000` (global.ts line 54). -/
def stale : Nat := 24 * 60 * 60 * 1000

/-- The configuration the composition root passes to both the memory tier and
the zone tier (global.ts lines 89 and 96-99). -/
def wiredConfig : CacheConfig := { fresh := fresh, stale := stale }

/-- Modelled from the spec: the backing store of a single tier, an
association list from namespaced key to entry.  The head entry for a key
shadows older ones. -/
def TierStore (V : Type) : Type := List (NsKey × Entry V)

instance (V : Type) [DecidableEq V] : DecidableEq (TierStore V) :=
  inferInstanceAs (DecidableEq (List (NsKey × Entry V)))

/-- Look a key up in a tier store (first binding wins). -/
def storeLookup {V : Type} : TierStore V → NsKey → Option (Entry V)
  | [], _ => none
  | (k', e) :: rest, k => if k' = k then some e else storeLookup rest k

/-- Modelled from the spec: a tier-level write.  Spec sections 3 and 5 require
that "writes never overwrite a fresher value with a staler one"
(conditional-on-recency at the tier level), so the write is dropped when the
store already holds a strictly newer entry for the key. -/
def storeSet {V : Type} (s : TierStore V) (k : NsKey) (e : Entry V) : TierStore V :=
  match storeLookup s k with
  | none => (k, e) :: s
  | some old => if old.storedAt ≤ e.storedAt then (k, e) :: s else s

/-- Modelled from the spec: `remove` deletes if present; removing an absent
key is a no-op (spec section 4.1). -/
def storeRemove {V : Type} (s : TierStore V) (k : NsKey) : TierStore V :=
  s.filter (fun p => p.1 ≠ k)

/-- Result of a single tier's `get`, before the entry's `storedAt` is
forgotten: promotion needs the original `storedAt` (spec section 4.4 step 2). -/
inductive TierLook (V : Type) where
  | fresh (e : Entry V)
  | stale (v : V)
  | miss
deriving DecidableEq, Repr

/-- Result of a cache `get` as seen by callers: the cache layer only ever
returns `Fresh`, `Stale` or `Miss` (spec section 7). -/
inductive CacheResult (V : Type) where
  | fresh (v : V)
  | stale (v : V)
  | miss
deriving DecidableEq, Repr

/-- Modelled from the spec: the two-phase age policy applied to a stored
entry (spec section 3): age `< fresh` is authoritative, `fresh ≤` age
`< stale` is usable-but-stale, age `≥ stale` is treated as absent. -/
def ageLook {V : Type} (cfg : CacheConfig) (e : Entry V) (now : Nat) : TierLook V :=
  if now - e.storedAt < cfg.fresh then .fresh e
  else if now - e.storedAt < cfg.stale then .stale e.value
  else .miss

/-- A remote-tier transport failure (spec sections 4.1 and 7): the zone tier
is reached over the network and the call may time out or fail. -/
inductive TransportFailure where
  | unreachable
  | timeout
deriving DecidableEq, Repr

/-- The remote tier's transport: either it delivers the backing store, or the
call fails (unreachable/timeout). -/
inductive Transport (V : Type) where
  | ok (store : TierStore V)
  | failed (f : TransportFailure)
deriving DecidableEq

/-- A physical cache tier.  `mem` is the process-local memory tier; `zone`
is the remote edge tier, whose backing store is only reachable through a
transport that may fail (spec sections 2 and 4.1). -/
inductive Tier (V : Type) where
  | mem (store : TierStore V)
  | zone (transport : Transport V)
deriving DecidableEq

/-- The entry a tier currently holds for a key, if any; a zone tier behind a
failing transport holds nothing observable. -/
def tierEntry {V : Type} : Tier V → NsKey → Option (Entry V)
  | .mem s, k => storeLookup s k
  | .zone (.ok s), k => storeLookup s k
  | .zone (.failed _), _ => none

/-- Modelled from the spec: a single tier's `get`.  On remote-tier transport
failure the tier resolves to `Miss` and never propagates the transport error
(spec sections 4.1 and 7). -/
def tierLook {V : Type} (cfg : CacheConfig) (t : Tier V) (k : NsKey) (now : Nat) : TierLook V :=
  match t with
  | .mem s =>
    match storeLookup s k with
    | some e => ageLook cfg e now
    | none => .miss
  | .zone (.ok s) =>
    match storeLookup s k with
    | some e => ageLook cfg e now
    | none => .miss
  | .zone (.failed _) => .miss

/-- Modelled from the spec: a single tier's `set`.  A remote-tier write
behind a failing transport degrades to a no-op rather than raising
(spec section 4.1, "failures degrade to `Miss`/no-op"). -/
def tierSet {V : Type} (t : Tier V) (k : NsKey) (e : Entry V) : Tier V :=
  match t with
  | .mem s => .mem (storeSet s k e)
  | .zone (.ok s) => .zone (.ok (storeSet s k e))
  | .zone (.failed f) => .zone (.failed f)

/-- Modelled from the spec: a single tier's `remove` (spec section 4.1). -/
def tierRemove {V : Type} (t : Tier V) (k : NsKey) : Tier V :=
  match t with
  | .mem s => .mem (storeRemove s k)
  | .zone (.ok s) => .zone (.ok (storeRemove s k))
  | .zone (.failed f) => .zone (.failed f)

/-- Outcome of scanning the tier list for the policy engine: either the first
`Fresh` entry was found, or no tier was fresh and `staleVal` carries the first
`Stale` value encountered (if any). -/
inductive ScanOut (V : Type) where
  | found (e : Entry V)
  | noneFresh (staleVal : Option V)
deriving DecidableEq, Repr

/-- Modelled from the spec: the Tiered Cache read scan (spec section 4.4 step
1 and 2).  Tiers are consulted in order; at the first tier returning `Fresh`,
the entry is promoted — written with its original `storedAt` — into every
earlier tier (each of which missed or returned `Stale`, since this is the
first fresh tier). -/
def scanTiers {V : Type} (cfg : CacheConfig) (k : NsKey) (now : Nat) :
    List (Tier V) → ScanOut V × List (Tier V)
  | [] => (.noneFresh none, [])
  | t :: ts =>
    match tierLook cfg t k now with
    | .fresh e => (.found e, t :: ts)
    | look =>
      match scanTiers cfg k now ts with
      | (.found e, ts') => (.found e, tierSet t k e :: ts')
      | (.noneFresh deeper, ts') =>
        (.noneFresh (match look with | .stale v => some v | _ => deeper), t :: ts')

/-- Modelled from the spec: the Tiered Cache state — the ordered tier list
plus the refresh-coalescing registry of keys with an outstanding refresh
(spec sections 4.4 step 3 and 5). -/
structure TieredState (V : Type) where
  tiers : List (Tier V)
  inFlight : List NsKey
deriving DecidableEq

/-- Modelled from the spec: `TieredCache.get` (spec section 4.4).  Returns
the caller-visible result, the updated state, and the number of refresh-hook
invocations this call triggered (1 when a stale result starts a refresh,
0 when the key already has an outstanding refresh or no refresh is needed). -/
def tieredGet {V : Type} (cfg : CacheConfig) (k : NsKey) (now : Nat)
    (st : TieredState V) : CacheResult V × TieredState V × Nat :=
  match scanTiers cfg k now st.tiers with
  | (.found e, ts') => (.fresh e.value, ⟨ts', st.inFlight⟩, 0)
  | (.noneFresh (some v), ts') =>
    if k ∈ st.inFlight then (.stale v, ⟨ts', st.inFlight⟩, 0)
    else (.stale v, ⟨ts', k :: st.inFlight⟩, 1)
  | (.noneFresh none, ts') => (.miss, ⟨ts', st.inFlight⟩, 0)

/-- Modelled from the spec: `TieredCache.set` stamps `storedAt = now` and
writes through to every tier (spec section 4.4). -/
def tieredSet {V : Type} (st : TieredState V) (k : NsKey) (v : V) (now : Nat) :
    TieredState V :=
  ⟨st.tiers.map (fun t => tierSet t k ⟨v, now⟩), st.inFlight⟩

/-- Modelled from the spec: `TieredCache.remove` deletes from every tier
(spec section 4.4). -/
def tieredRemove {V : Type} (st : TieredState V) (k : NsKey) : TieredState V :=
  ⟨st.tiers.map (fun t => tierRemove t k), st.inFlight⟩

/-- Modelled from the spec: completion of an in-flight refresh — the fetched
value is written via `set` across all tiers and the coalescing-registry entry
is cleared (spec sections 4.4 step 3 and 5). -/
def refreshComplete {V : Type} (st : TieredState V) (k : NsKey)
    (res : Option V) (now : Nat) : TieredState V :=
  let st' := match res with
    | some v => tieredSet st k v now
    | none => st
  ⟨st'.tiers, st'.inFlight.filter (fun k' => k' ≠ k)⟩

/-! ## The composition root (`global.ts`) -/

/-- The slice of `Env` that `init` reads (global.ts lines 77-131).  Optional
bindings (queues, durable-object namespaces, tokens, zone credentials) are
`Option String`; `none` models an unset binding. -/
structure Env where
  METRICS : Option String
  AXIOM_TOKEN : Option String
  ENVIRONMENT : String
  CLOUDFLARE_ZONE_ID : Option String
  CLOUDFLARE_API_KEY : Option String
  DATABASE_HOST : String
  DATABASE_USERNAME : String
  DATABASE_PASSWORD : String
  LOGS : Option String
  DO_USAGELIMIT : Option String
  DO_RATELIMIT : Option String
  TINYBIRD_TOKEN : String
deriving DecidableEq, Repr

/-- JavaScript truthiness of an optional string binding: `undefined` and the
empty string are falsy. -/
def truthy : Option String → Bool
  | none => false
  | some s => s ≠ ""

/-- The ordered tier list the composition root builds (global.ts lines
86-107): the memory tier first, and the zone tier second only when both
`CLOUDFLARE_ZONE_ID` and `CLOUDFLARE_API_KEY` are truthy.  Both tiers start
empty; the zone tier starts with a working transport. -/
def initTiers (V : Type) (env : Env) : List (Tier V) :=
  Tier.mem [] ::
    (if truthy env.CLOUDFLARE_ZONE_ID && truthy env.CLOUDFLARE_API_KEY
     then [Tier.zone (.ok [])]
     else [])

/-- The `{ fresh, stale }` configuration handed to each constructed tier, in
tier order (global.ts lines 89 and 96-99: both the `MemoryCache` and the
`ZoneCache` receive the same `fresh` and `stale` constants). -/
def initTierConfigs (env : Env) : List CacheConfig :=
  wiredConfig ::
    (if truthy env.CLOUDFLARE_ZONE_ID && truthy env.CLOUDFLARE_API_KEY
     then [wiredConfig]
     else [])

/-! ## The namespace registry (global.ts lines 27-51) -/

/-- The closed set of cache namespaces declared by `CacheNamespaces`
(global.ts lines 27-51). -/
inductive CacheNamespace where
  | keyById
  | keyByHash
  | apiById
  | keysByOwnerId
  | verificationsByKeyId
deriving DecidableEq, Repr

/-- The value shape of `keyById` and `keyByHash`:
`{ key: Key; api: Api; permissions: string[]; roles: string[] }`
(global.ts lines 28-39).  `Key` and `Api` come from `./db`, outside the
given sources, so they are type parameters here. -/
structure KeyInfo (Key Api : Type) where
  key : Key
  api : Api
  permissions : List String
  roles : List String

/-- The value shape of `keysByOwnerId`: `{ key: Key; api: Api }`
(global.ts lines 41-44). -/
structure OwnerKey (Key Api : Type) where
  key : Key
  api : Api

/-- The value shape of `verificationsByKeyId` entries (global.ts lines
45-50). -/
structure Verification where
  time : Nat
  success : Nat
  rateLimited : Nat
  usageExceeded : Nat

/-- The type-level mapping `CacheNamespaces` (global.ts lines 27-51): each
namespace tag is bound to its declared value type; `T | null` becomes
`Option T`. -/
def CacheNamespaces (Key Api : Type) : CacheNamespace → Type
  | .keyById => Option (KeyInfo Key Api)
  | .keyByHash => Option (KeyInfo Key Api)
  | .apiById => Option Api
  | .keysByOwnerId => List (OwnerKey Key Api)
  | .verificationsByKeyId => List Verification

/-- A store indexed by the namespace registry: the value held under
namespace `n` has type `CacheNamespaces Key Api n` by construction, so no
value outside a namespace's declared value type can be stored under it. -/
def TypedStore (Key Api : Type) : Type :=
  (n : CacheNamespace) → String → Option (CacheNamespaces Key Api n × Nat)

/-- A statically-typed `set` on a `TypedStore`: the value argument's type is
forced by the namespace argument. -/
def typedSet {Key Api : Type} (st : TypedStore Key Api) (n : CacheNamespace)
    (k : String) (v : CacheNamespaces Key Api n) (t : Nat) : TypedStore Key Api :=
  fun n' k' =>
    if h : n' = n then
      (if k' = k then some (h ▸ v, t) else st n' k')
    else st n' k'

/-! ## The global services and `init` (global.ts lines 56-144) -/

/-- Which metrics backend `init` picks (global.ts lines 77-84). -/
inductive MetricsService where
  | fromQueue (queue : String)
  | fromAxiom (token environment : String)
  | noop
deriving DecidableEq, Repr

/-- Which logger `init` picks (global.ts lines 114-118). -/
inductive LoggerService where
  | fromQueue (queue : String)
  | fromAxiom (token environment : String)
  | console
deriving DecidableEq, Repr

/-- Which usage limiter `init` picks (global.ts lines 120-124). -/
inductive UsageLimiterService where
  | durable (ns : String)
  | noop
deriving DecidableEq, Repr

/-- Which rate limiter `init` picks (global.ts lines 127-131). -/
inductive RateLimiterService where
  | durable (ns : String)
  | noop
deriving DecidableEq, Repr

/-- The database connection parameters (`createConnection`, global.ts lines
109-113). -/
structure DbService where
  host : String
  username : String
  password : String
deriving DecidableEq, Repr

/-- The cache service as wired: its ordered tier list together with the
configuration handed to each tier. -/
structure CacheService where
  tiers : List (Tier Nat)
  configs : List CacheConfig
deriving DecidableEq

/-- The key service holds references to the other services (global.ts lines
133-141). -/
structure KeyServiceDeps where
  cache : CacheService
  dbc : DbService
  metrics : MetricsService
  logger : LoggerService
  usageLimiter : UsageLimiterService
  rateLimiter : RateLimiterService
  analytics : String
deriving DecidableEq

/-- The module-level mutable bindings of `global.ts` (lines 56-65): the
exported services, each unset before `init` completes, and the `initialized`
flag. -/
structure GlobalState where
  initialized : Bool
  cache : Option CacheService
  db : Option DbService
  metrics : Option MetricsService
  logger : Option LoggerService
  keyService : Option KeyServiceDeps
  analytics : Option String
  usageLimiter : Option UsageLimiterService
  rateLimiter : Option RateLimiterService
deriving DecidableEq

/-- The metrics choice (global.ts lines 77-84): a metrics queue wins, then an
Axiom token, else noop. -/
def chooseMetrics (env : Env) : MetricsService :=
  if truthy env.METRICS then .fromQueue (env.METRICS.getD "")
  else if truthy env.AXIOM_TOKEN then .fromAxiom (env.AXIOM_TOKEN.getD "") env.ENVIRONMENT
  else .noop

/-- The logger choice (global.ts lines 114-118). -/
def chooseLogger (env : Env) : LoggerService :=
  if truthy env.LOGS then .fromQueue (env.LOGS.getD "")
  else if truthy env.AXIOM_TOKEN then .fromAxiom (env.AXIOM_TOKEN.getD "") env.ENVIRONMENT
  else .console

/-- The usage-limiter choice (global.ts lines 120-124). -/
def chooseUsageLimiter (env : Env) : UsageLimiterService :=
  if truthy env.DO_USAGELIMIT then .durable (env.DO_USAGELIMIT.getD "") else .noop

/-- The rate-limiter choice (global.ts lines 127-131). -/
def chooseRateLimiter (env : Env) : RateLimiterService :=
  if truthy env.DO_RATELIMIT then .durable (env.DO_RATELIMIT.getD "") else .noop

/-- `init` (global.ts lines 72-144): returns immediately when `initialized`
is already set; otherwise assigns every exported service from the
environment and sets `initialized`. -/
def init (s : GlobalState) (env : Env) : GlobalState :=
  if s.initialized then s
  else
    let metrics := chooseMetrics env
    let cache : CacheService := ⟨initTiers Nat env, initTierConfigs env⟩
    let dbc : DbService :=
      ⟨env.DATABASE_HOST, env.DATABASE_USERNAME, env.DATABASE_PASSWORD⟩
    let logger := chooseLogger env
    let usageLimiter := chooseUsageLimiter env
    let analytics := env.TINYBIRD_TOKEN
    let rateLimiter := chooseRateLimiter env
    { initialized := true
      cache := some cache
      db := some dbc
      metrics := some metrics
      logger := some logger
      keyService := some ⟨cache, dbc, metrics, logger, usageLimiter, rateLimiter, analytics⟩
      analytics := some analytics
      usageLimiter := some usageLimiter
      rateLimiter := some rateLimiter }

/-! ## Decorators (spec sections 4.2 and 4.3; wired in global.ts lines 87-92) -/

/-- A single operation against a cache tier (`get`/`set`/`remove`). -/
inductive CacheOp (V : Type) where
  | get (k : NsKey) (now : Nat)
  | set (k : NsKey) (v : V) (storedAt : Nat)
  | remove (k : NsKey)
deriving DecidableEq

/-- A tier operation's caller-visible result. -/
inductive OpResult (V : Type) where
  | got (r : TierLook V)
  | done
deriving DecidableEq, Repr

/-- The namespace an operation addresses (the metrics decorator records it). -/
def CacheOp.nsOf {V : Type} : CacheOp V → String
  | .get k _ => k.ns
  | .set k _ _ => k.ns
  | .remove k => k.ns

/-- The operation's name as recorded by the decorators. -/
def CacheOp.opName {V : Type} : CacheOp V → String
  | .get _ _ => "get"
  | .set _ _ _ => "set"
  | .remove _ => "remove"

/-- The outcome label the metrics decorator records (spec section 4.2). -/
def outcomeLabel {V : Type} : OpResult V → String
  | .got (.fresh _) => "fresh"
  | .got (.stale _) => "stale"
  | .got .miss => "miss"
  | .done => "ok"

/-- An instrumentation event emitted by a decorator: a metrics record or a
span boundary (spec sections 4.2 and 4.3; spans carry the namespace, not the
raw key). -/
inductive InstrEvent where
  | metric (op ns outcome : String)
  | spanOpen (op ns : String)
  | spanClose (op ns : String)
deriving DecidableEq, Repr

/-- Modelled from the spec: the undecorated behaviour of one tier under a
single operation (spec section 4.1). -/
def runOp {V : Type} (cfg : CacheConfig) (t : Tier V) :
    CacheOp V → OpResult V × Tier V
  | .get k now => (.got (tierLook cfg t k now), t)
  | .set k v s => (.done, tierSet t k ⟨v, s⟩)
  | .remove k => (.done, tierRemove t k)

/-- A runner: one tier operation producing the result, the updated tier and
the instrumentation events emitted while serving it. -/
def Runner (V : Type) : Type :=
  Tier V → CacheOp V → OpResult V × Tier V × List InstrEvent

/-- The undecorated runner emits no events. -/
def baseRunner {V : Type} (cfg : CacheConfig) : Runner V :=
  fun t c => ((runOp cfg t c).1, (runOp cfg t c).2, [])

/-- Modelled from the spec: `CacheWithMetrics.wrap` — forwards the call
unchanged and records one metrics event per operation (spec section 4.2). -/
def withMetrics {V : Type} (r : Runner V) : Runner V :=
  fun t c =>
    let (res, t', es) := r t c
    (res, t', es ++ [.metric c.opName c.nsOf (outcomeLabel res)])

/-- Modelled from the spec: `CacheWithTracing.wrap` — opens a span scoped to
the operation, forwards the call unchanged, closes the span (spec section
4.3). -/
def withTracing {V : Type} (r : Runner V) : Runner V :=
  fun t c =>
    let (res, t', es) := r t c
    (res, t', .spanOpen c.opName c.nsOf :: es ++ [.spanClose c.opName c.nsOf])

/-- Run a sequence of operations through a runner, collecting the
caller-visible results and the final tier (events discarded: they are what
the decorators add, never part of the caller-visible behaviour). -/
def runSeq {V : Type} (r : Runner V) (t : Tier V) :
    List (CacheOp V) → List (OpResult V) × Tier V
  | [] => ([], t)
  | c :: cs =>
    let (res, t', _) := r t c
    let (rest, tf) := runSeq r t' cs
    (res :: rest, tf)

/-! ## Concurrent stale reads (spec sections 4.4 step 3 and 5; claim C4) -/

/-- Modelled from the spec: `n` concurrent `get` callers for the same key,
modelled as an arbitrary interleaving in which each `get` runs atomically in
turn while the triggered refresh (if any) is still outstanding.  Returns the
final state and the total number of refresh-hook invocations. -/
def runGets {V : Type} (cfg : CacheConfig) (k : NsKey) (now : Nat) :
    Nat → TieredState V → TieredState V × Nat
  | 0, st => (st, 0)
  | n + 1, st =>
    let (_, st', h) := tieredGet cfg k now st
    let (stf, hs) := runGets cfg k now n st'
    (stf, h + hs)

/-! ## Helper lemmas -/

theorem tierLook_eq_entry {V : Type} (cfg : CacheConfig) (t : Tier V) (k : NsKey)
    (now : Nat) :
    tierLook cfg t k now =
      (match tierEntry t k with
       | some e => ageLook cfg e now
       | none => .miss) := by
  cases t with
  | mem s => simp [tierLook, tierEntry]
  | zone tr => cases tr with
    | ok s => simp [tierLook, tierEntry]
    | failed f => simp [tierLook, tierEntry]

theorem scanTiers_all_stale {V : Type} (cfg : CacheConfig) (k : NsKey) (now : Nat)
    (v : V) :
    ∀ (ts : List (Tier V)),
      (∀ u ∈ ts, tierLook cfg u k now = .stale v) →
      scanTiers cfg k now ts =
        (.noneFresh (if ts.isEmpty then none else some v), ts) := by
  intro ts
  induction ts with
  | nil =>
    intro _
    simp [scanTiers]
  | cons t us ih =>
    intro hall
    have ht : tierLook cfg t k now = TierLook.stale v := hall t (by simp)
    have hus : ∀ w ∈ us, tierLook cfg w k now = TierLook.stale v := by
      intro w hw; exact hall w (by simp [hw])
    simp only [scanTiers, ih hus, ht, List.isEmpty_cons]
    cases us <;> simp

theorem scanTiers_all_miss {V : Type} (cfg : CacheConfig) (k : NsKey) (now : Nat) :
    ∀ (ts : List (Tier V)),
      (∀ u ∈ ts, tierLook cfg u k now = .miss) →
      scanTiers cfg k now ts = (.noneFresh none, ts) := by
  intro ts
  induction ts with
  | nil => intro _; simp [scanTiers]
  | cons t us ih =>
    intro hall
    have ht : tierLook cfg t k now = TierLook.miss := hall t (by simp)
    have hus : ∀ w ∈ us, tierLook cfg w k now = TierLook.miss := by
      intro w hw; exact hall w (by simp [hw])
    simp [scanTiers, ht, ih hus]

/-! ## Claim theorems -/

/-- C3.  Never-downgrade: writing `V1` at `t1` and then `V2` at `t0 < t1`
leaves the tier store holding `V1` (both at store level and through a memory
tier), and in general no `set` write overwrites an entry with a strictly
newer `storedAt`. -/
theorem never_downgrade {V : Type} (s : TierStore V) (k : NsKey) (v1 v2 : V)
    (t1 t0 : Nat)
    (hprior : ∀ e, storeLookup s k = some e → e.storedAt ≤ t1)
    (h : t0 < t1) :
    storeLookup (storeSet (storeSet s k ⟨v1, t1⟩) k ⟨v2, t0⟩) k = some ⟨v1, t1⟩ ∧
    tierEntry (tierSet (tierSet (Tier.mem s) k ⟨v1, t1⟩) k ⟨v2, t0⟩) k = some ⟨v1, t1⟩ ∧
    (∀ (s' : TierStore V) (e : Entry V),
        storeLookup s' k = some e → t0 < e.storedAt → storeSet s' k ⟨v2, t0⟩ = s') := by
  have hfirst : storeLookup (storeSet s k ⟨v1, t1⟩) k = some ⟨v1, t1⟩ := by
    unfold storeSet
    cases hl : storeLookup s k with
    | none => simp [storeLookup]
    | some old =>
      have : old.storedAt ≤ t1 := hprior old hl
      simp [this, storeLookup]
  have hgen : ∀ (s' : TierStore V) (e : Entry V),
      storeLookup s' k = some e → t0 < e.storedAt → storeSet s' k ⟨v2, t0⟩ = s' := by
    intro s' e hl hlt
    unfold storeSet
    rw [hl]
    simp [Nat.not_le_of_lt hlt]
  have hsecond : storeLookup (storeSet (storeSet s k ⟨v1, t1⟩) k ⟨v2, t0⟩) k
      = some ⟨v1, t1⟩ := by
    rw [hgen _ ⟨v1, t1⟩ hfirst h]
    exact hfirst
  refine ⟨hsecond, ?_, hgen⟩
  simp [tierSet, tierEntry, hsecond]

/-- C3 witness: a concrete run of the never-downgrade property. -/
theorem never_downgrade_witness :
    storeLookup
        (storeSet (storeSet ([] : TierStore Nat) ⟨"keyById", "k1"⟩ ⟨5, 100⟩)
          ⟨"keyById", "k1"⟩ ⟨6, 40⟩) ⟨"keyById", "k1"⟩ = some ⟨5, 100⟩ :=
  (never_downgrade [] ⟨"keyById", "k1"⟩ 5 6 100 40 (by intro e he; simp [storeLookup] at he)
    (by decide)).1

/-- C8.  The wired freshness windows: `fresh` is one minute, `stale` is 24
hours, `fresh ≤ stale`, and every tier the composition root constructs
receives exactly this `{ fresh, stale }` configuration. -/
theorem wired_fresh_le_stale :
    fresh = 60000 ∧ stale = 86400000 ∧ fresh ≤ stale ∧
    wiredConfig.fresh ≤ wiredConfig.stale ∧
    (∀ env : Env, initTierConfigs env = [wiredConfig] ∨
        initTierConfigs env = [wiredConfig, wiredConfig]) := by
  refine ⟨rfl, rfl, by decide, by decide, ?_⟩
  intro env
  unfold initTierConfigs
  by_cases h : (truthy env.CLOUDFLARE_ZONE_ID && truthy env.CLOUDFLARE_API_KEY) = true
  · right; simp [h]
  · left; simp [h]

/-- C9.  The namespace registry is closed: `CacheNamespace` has exactly the
five declared namespaces, `CacheNamespaces` binds each to its declared value
type, and a store indexed by the registry can only hold a value of the
namespace's declared type (the stored value is returned at that very type). -/
theorem namespace_registry_closed (K A : Type) :
    (∀ n : CacheNamespace,
        n = .keyById ∨ n = .keyByHash ∨ n = .apiById ∨ n = .keysByOwnerId ∨
        n = .verificationsByKeyId) ∧
    CacheNamespaces K A .keyById = Option (KeyInfo K A) ∧
    CacheNamespaces K A .keyByHash = Option (KeyInfo K A) ∧
    CacheNamespaces K A .apiById = Option A ∧
    CacheNamespaces K A .keysByOwnerId = List (OwnerKey K A) ∧
    CacheNamespaces K A .verificationsByKeyId = List Verification ∧
    (∀ (st : TypedStore K A) (n : CacheNamespace) (k : String)
        (v : CacheNamespaces K A n) (t : Nat),
        typedSet st n k v t n k = some (v, t)) := by
  refine ⟨?_, rfl, rfl, rfl, rfl, rfl, ?_⟩
  · intro n; cases n <;> simp
  · intro st n k v t
    cases n <;> simp [typedSet]

/-- C10.  `init` is idempotent: a completed call sets the `initialized` flag,
and any later call (with any environment) returns the state unchanged,
leaving every service bound by the first completed call in place. -/
theorem init_idempotent (s : GlobalState) (e1 e2 : Env) :
    init (init s e1) e2 = init s e1 ∧ (init s e1).initialized = true := by
  by_cases h : s.initialized
  · constructor
    · simp [init, h]
    · simp [init, h]
  · constructor
    · simp [init, h]
    · simp [init, h]

/-- C1.  The Tiered Cache `get` under the wired windows (`fresh` = 1 minute,
`stale` = 24 hours): for a key every tier holds with `storedAt = s`, age
`now - s < fresh` yields `Fresh` with no refresh-hook invocation; `fresh ≤`
age `< stale` yields `Stale` and triggers the refresh hook; age `≥ stale`
yields `Miss`; and a key no tier ever held yields `Miss`. -/
theorem age_policy_three_way {V : Type} :
    (∀ (ts : List (Tier V)) (fl : List NsKey) (k : NsKey) (now : Nat) (v : V)
        (s : Nat),
      ts ≠ [] →
      (∀ t ∈ ts, tierEntry t k = some ⟨v, s⟩) →
      ((now - s < fresh →
          tieredGet wiredConfig k now ⟨ts, fl⟩ = (.fresh v, ⟨ts, fl⟩, 0)) ∧
       (fresh ≤ now - s → now - s < stale → k ∉ fl →
          tieredGet wiredConfig k now ⟨ts, fl⟩ = (.stale v, ⟨ts, k :: fl⟩, 1)) ∧
       (stale ≤ now - s →
          tieredGet wiredConfig k now ⟨ts, fl⟩ = (.miss, ⟨ts, fl⟩, 0)))) ∧
    (∀ (ts : List (Tier V)) (fl : List NsKey) (k : NsKey) (now : Nat),
      (∀ t ∈ ts, tierEntry t k = none) →
      tieredGet wiredConfig k now ⟨ts, fl⟩ = (.miss, ⟨ts, fl⟩, 0)) := by
  constructor
  · intro ts fl k now v s hne hall
    refine ⟨?_, ?_, ?_⟩
    · -- age < fresh: the head tier already answers Fresh
      intro hage
      obtain ⟨t, us, rfl⟩ := List.exists_cons_of_ne_nil hne
      have ht : tierLook wiredConfig t k now = .fresh ⟨v, s⟩ := by
        rw [tierLook_eq_entry, hall t (by simp)]
        simp [ageLook, hage, wiredConfig]
      simp [tieredGet, scanTiers, ht]
    · -- fresh ≤ age < stale: every tier answers Stale, refresh fires once
      intro h1 h2 hout
      have hstale : ∀ t ∈ ts, tierLook wiredConfig t k now = .stale v := by
        intro t htm
        rw [tierLook_eq_entry, hall t htm]
        simp [ageLook, Nat.not_lt_of_le h1, h2, wiredConfig]
      have hscan := scanTiers_all_stale wiredConfig k now v ts hstale
      have hemp : ts.isEmpty = false := by
        cases ts with
        | nil => exact absurd rfl hne
        | cons a l => rfl
      rw [hemp] at hscan
      simp only [if_neg (by decide : ¬ false = true)] at hscan
      simp [tieredGet, hscan, hout]
    · -- stale ≤ age: every tier answers Miss
      intro hage
      have hmiss : ∀ t ∈ ts, tierLook wiredConfig t k now = .miss := by
        intro t htm
        rw [tierLook_eq_entry, hall t htm]
        have h1 : ¬ now - s < wiredConfig.fresh := by
          simp only [wiredConfig]
          exact Nat.not_lt_of_le (le_trans (by decide) hage)
        have h2 : ¬ now - s < wiredConfig.stale := by
          simp only [wiredConfig]
          exact Nat.not_lt_of_le hage
        simp [ageLook, h1, h2]
      simp [tieredGet, scanTiers_all_miss wiredConfig k now ts hmiss]
  · intro ts fl k now hall
    have hmiss : ∀ t ∈ ts, tierLook wiredConfig t k now = .miss := by
      intro t htm
      rw [tierLook_eq_entry, hall t htm]
    simp [tieredGet, scanTiers_all_miss wiredConfig k now ts hmiss]

/-- C1 witness: concrete runs of the three-way policy — a 30 s old entry is
`Fresh` with no refresh, a 1 h old entry is `Stale` with one refresh
invocation, a 25 h old entry is `Miss`, and a never-set key is `Miss`. -/
theorem age_policy_three_way_witness :
    tieredGet wiredConfig ⟨"keyById", "k1"⟩ 30000
        ⟨[Tier.mem [(⟨"keyById", "k1"⟩, ⟨(7 : Nat), 0⟩)]], []⟩ =
      (.fresh 7, ⟨[Tier.mem [(⟨"keyById", "k1"⟩, ⟨7, 0⟩)]], []⟩, 0) ∧
    tieredGet wiredConfig ⟨"keyById", "k1"⟩ 3600000
        ⟨[Tier.mem [(⟨"keyById", "k1"⟩, ⟨(7 : Nat), 0⟩)]], []⟩ =
      (.stale 7, ⟨[Tier.mem [(⟨"keyById", "k1"⟩, ⟨7, 0⟩)]],
        [⟨"keyById", "k1"⟩]⟩, 1) ∧
    tieredGet wiredConfig ⟨"keyById", "k1"⟩ 90000000
        ⟨[Tier.mem [(⟨"keyById", "k1"⟩, ⟨(7 : Nat), 0⟩)]], []⟩ =
      (.miss, ⟨[Tier.mem [(⟨"keyById", "k1"⟩, ⟨7, 0⟩)]], []⟩, 0) ∧
    tieredGet wiredConfig ⟨"keyById", "k2"⟩ 30000
        ⟨[Tier.mem ([] : TierStore Nat)], []⟩ =
      (.miss, ⟨[Tier.mem []], []⟩, 0) := by
  have h := age_policy_three_way (V := Nat)
  exact ⟨(h.1 [Tier.mem [(⟨"keyById", "k1"⟩, ⟨7, 0⟩)]] [] ⟨"keyById", "k1"⟩
            30000 7 0 (by decide) (by decide)).1 (by decide),
         (h.1 [Tier.mem [(⟨"keyById", "k1"⟩, ⟨7, 0⟩)]] [] ⟨"keyById", "k1"⟩
            3600000 7 0 (by decide) (by decide)).2.1 (by decide) (by decide)
            (by decide),
         (h.1 [Tier.mem [(⟨"keyById", "k1"⟩, ⟨7, 0⟩)]] [] ⟨"keyById", "k1"⟩
            90000000 7 0 (by decide) (by decide)).2.2 (by decide),
         h.2 [Tier.mem []] [] ⟨"keyById", "k2"⟩ 30000 (by decide)⟩

/-- C2.  Promotion: with the wired tier order (memory first, zone second),
local-tier `Miss` and remote-tier `Fresh(V)` make `get` return `Fresh(V)`
after writing `V` with its original `storedAt` into the local tier, so a
subsequent `get` with no other writes observes `Fresh(V)` from the local
tier itself. -/
theorem promotion_local_observes_fresh {V : Type} (m z : TierStore V) (k : NsKey)
    (now : Nat) (v : V) (s : Nat) (fl : List NsKey)
    (hm : storeLookup m k = none)
    (hz : storeLookup z k = some ⟨v, s⟩)
    (hfresh : now - s < wiredConfig.fresh) :
    tieredGet wiredConfig k now ⟨[Tier.mem m, Tier.zone (.ok z)], fl⟩ =
      (.fresh v, ⟨[Tier.mem ((k, ⟨v, s⟩) :: m), Tier.zone (.ok z)], fl⟩, 0) ∧
    storeLookup ((k, ⟨v, s⟩) :: m) k = some ⟨v, s⟩ ∧
    tieredGet wiredConfig k now
        ⟨[Tier.mem ((k, ⟨v, s⟩) :: m), Tier.zone (.ok z)], fl⟩ =
      (.fresh v, ⟨[Tier.mem ((k, ⟨v, s⟩) :: m), Tier.zone (.ok z)], fl⟩, 0) ∧
    tierLook wiredConfig (Tier.mem ((k, ⟨v, s⟩) :: m)) k now = .fresh ⟨v, s⟩ := by
  have hlookm : tierLook wiredConfig (Tier.mem m) k now = .miss := by
    simp [tierLook, hm]
  have hlookz : tierLook wiredConfig (Tier.zone (.ok z)) k now = .fresh ⟨v, s⟩ := by
    simp [tierLook, hz, ageLook, hfresh]
  have hlookm2 : tierLook wiredConfig (Tier.mem ((k, ⟨v, s⟩) :: m)) k now
      = .fresh ⟨v, s⟩ := by
    simp [tierLook, storeLookup, ageLook, hfresh]
  refine ⟨?_, by simp [storeLookup], ?_, hlookm2⟩
  · simp [tieredGet, scanTiers, hlookm, hlookz, tierSet, storeSet, hm]
  · simp [tieredGet, scanTiers, hlookm2]

/-- C2 witness: a concrete promotion — empty local tier, zone tier holding 9
stored at 0, read at 30 s. -/
theorem promotion_local_observes_fresh_witness :
    tieredGet wiredConfig ⟨"apiById", "a1"⟩ 30000
        ⟨[Tier.mem ([] : TierStore Nat),
          Tier.zone (.ok [(⟨"apiById", "a1"⟩, ⟨9, 0⟩)])], []⟩ =
      (.fresh 9, ⟨[Tier.mem [(⟨"apiById", "a1"⟩, ⟨9, 0⟩)],
        Tier.zone (.ok [(⟨"apiById", "a1"⟩, ⟨9, 0⟩)])], []⟩, 0) :=
  (promotion_local_observes_fresh [] [(⟨"apiById", "a1"⟩, ⟨9, 0⟩)]
    ⟨"apiById", "a1"⟩ 30000 9 0 [] (by decide) (by decide) (by decide)).1

/-- Helper for C4: once the key is in the coalescing registry and every tier
answers `Stale`, further `get` calls change nothing and invoke no hook. -/
theorem runGets_inflight {V : Type} (cfg : CacheConfig) (k : NsKey) (now : Nat)
    (v : V) :
    ∀ (n : Nat) (st : TieredState V),
      (∀ t ∈ st.tiers, tierLook cfg t k now = .stale v) →
      k ∈ st.inFlight →
      runGets cfg k now n st = (st, 0) := by
  intro n
  induction n with
  | zero => intro st _ _; rfl
  | succ m ih =>
    intro st hall hin
    obtain ⟨ts, fl⟩ := st
    simp only at hall hin
    cases ts with
    | nil =>
      have hget : tieredGet cfg k now (⟨[], fl⟩ : TieredState V)
          = (.miss, ⟨[], fl⟩, 0) := by
        simp [tieredGet, scanTiers]
      simp [runGets, hget, ih ⟨[], fl⟩ (by simp) hin]
    | cons a l =>
      have hscan := scanTiers_all_stale cfg k now v (a :: l) hall
      simp only [List.isEmpty_cons, if_neg (by decide : ¬ false = true)] at hscan
      have hget : tieredGet cfg k now ⟨a :: l, fl⟩ = (.stale v, ⟨a :: l, fl⟩, 0) := by
        simp [tieredGet, hscan, hin]
      simp [runGets, hget, ih ⟨a :: l, fl⟩ hall hin]

/-- C4.  Refresh coalescing: with every tier answering `Stale` for the key
and no refresh outstanding, `n ≥ 1` concurrent `get` callers (an arbitrary
interleaving of atomic `get`s while the refresh stays outstanding) invoke the
refresh hook exactly once in total, and the key ends registered in-flight. -/
theorem refresh_coalescing {V : Type} (cfg : CacheConfig) (k : NsKey) (now : Nat)
    (v : V) (ts : List (Tier V)) (fl : List NsKey) (n : Nat)
    (hall : ∀ t ∈ ts, tierLook cfg t k now = .stale v)
    (hne : ts ≠ [])
    (hout : k ∉ fl)
    (hn : 1 ≤ n) :
    (runGets cfg k now n ⟨ts, fl⟩).2 = 1 ∧
    (runGets cfg k now n ⟨ts, fl⟩).1 = ⟨ts, k :: fl⟩ := by
  obtain ⟨m, rfl⟩ : ∃ m, n = m + 1 := ⟨n - 1, (Nat.succ_pred_eq_of_pos hn).symm⟩
  have hscan := scanTiers_all_stale cfg k now v ts hall
  have hemp : ts.isEmpty = false := by
    cases ts with
    | nil => exact absurd rfl hne
    | cons a l => rfl
  rw [hemp] at hscan
  simp only [if_neg (by decide : ¬ false = true)] at hscan
  have hget : tieredGet cfg k now ⟨ts, fl⟩ = (.stale v, ⟨ts, k :: fl⟩, 1) := by
    simp [tieredGet, hscan, hout]
  have hrest := runGets_inflight cfg k now v m ⟨ts, k :: fl⟩ hall (by simp)
  simp [runGets, hget, hrest]

/-- C4 witness: five concurrent stale readers of one key invoke the refresh
hook exactly once. -/
theorem refresh_coalescing_witness :
    (runGets wiredConfig ⟨"keyById", "k1"⟩ 3600000 5
        ⟨[Tier.mem [(⟨"keyById", "k1"⟩, ⟨(7 : Nat), 0⟩)]], []⟩).2 = 1 :=
  (refresh_coalescing wiredConfig ⟨"keyById", "k1"⟩ 3600000 7
    [Tier.mem [(⟨"keyById", "k1"⟩, ⟨7, 0⟩)]] [] 5 (by decide) (by decide)
    (by decide) (by decide)).1

/-- C5.  A remote-tier transport failure resolves that tier to `Miss`, the
overall `get` result is the same as without the broken remote tier, and
`get` only ever returns `Fresh`, `Stale` or `Miss` — never a tier-level or
transport-level error. -/
theorem transport_failure_degrades_to_miss {V : Type} (cfg : CacheConfig)
    (f : TransportFailure) (m : TierStore V) (k : NsKey) (now : Nat)
    (fl : List NsKey) :
    tierLook cfg (Tier.zone (Transport.failed f) : Tier V) k now = .miss ∧
    (tieredGet cfg k now ⟨[Tier.mem m, Tier.zone (.failed f)], fl⟩).1 =
      (tieredGet cfg k now ⟨[Tier.mem m], fl⟩).1 ∧
    (∀ st : TieredState V,
        (tieredGet cfg k now st).1 = .miss ∨
        (∃ w, (tieredGet cfg k now st).1 = .fresh w) ∨
        (∃ w, (tieredGet cfg k now st).1 = .stale w)) := by
  have hzf : tierLook cfg (Tier.zone (Transport.failed f) : Tier V) k now
      = TierLook.miss := rfl
  refine ⟨hzf, ?_, ?_⟩
  · cases hL : tierLook cfg (Tier.mem m) k now with
    | fresh e => simp [tieredGet, scanTiers, hL]
    | stale w =>
      by_cases hmem : k ∈ fl <;> simp [tieredGet, scanTiers, hL, hzf, hmem]
    | miss => simp [tieredGet, scanTiers, hL, hzf]
  · intro st
    rcases hs : scanTiers cfg k now st.tiers with ⟨out, ts'⟩
    cases out with
    | found e =>
      right; left; exact ⟨e.value, by simp [tieredGet, hs]⟩
    | noneFresh o =>
      cases o with
      | none => left; simp [tieredGet, hs]
      | some w =>
        right; right; refine ⟨w, ?_⟩
        by_cases hmem : k ∈ st.inFlight <;> simp [tieredGet, hs, hmem]

/-- C6.  Without remote-tier configuration (`CLOUDFLARE_ZONE_ID` or
`CLOUDFLARE_API_KEY` unset) the composition root constructs the Tiered Cache
with only the local memory tier, and `get`/`set`/`remove` are the same
policy algorithm operating over that single-tier list. -/
theorem single_tier_without_zone_config {V : Type} (env : Env)
    (h : env.CLOUDFLARE_ZONE_ID = none ∨ env.CLOUDFLARE_API_KEY = none) :
    initTiers V env = [Tier.mem []] ∧
    initTierConfigs env = [wiredConfig] ∧
    (∀ (k : NsKey) (now : Nat) (fl : List NsKey),
        tieredGet wiredConfig k now ⟨initTiers V env, fl⟩ =
          tieredGet wiredConfig k now ⟨[Tier.mem []], fl⟩) ∧
    (∀ (k : NsKey) (v : V) (now : Nat) (fl : List NsKey),
        tieredSet ⟨initTiers V env, fl⟩ k v now =
          tieredSet ⟨[Tier.mem []], fl⟩ k v now) ∧
    (∀ (k : NsKey) (fl : List NsKey),
        tieredRemove ⟨initTiers V env, fl⟩ k = tieredRemove ⟨[Tier.mem []], fl⟩ k) := by
  have hcond : (truthy env.CLOUDFLARE_ZONE_ID && truthy env.CLOUDFLARE_API_KEY)
      = false := by
    rcases h with h | h <;> simp [truthy, h]
  have htiers : initTiers V env = [Tier.mem []] := by
    simp [initTiers, hcond]
  have hconfigs : initTierConfigs env = [wiredConfig] := by
    simp [initTierConfigs, hcond]
  exact ⟨htiers, hconfigs,
    fun k now fl => by rw [htiers],
    fun k v now fl => by rw [htiers],
    fun k fl => by rw [htiers]⟩

/-- C6 witness: a fully unset environment yields exactly the single memory
tier. -/
theorem single_tier_without_zone_config_witness :
    initTiers Nat ⟨none, none, "", none, none, "", "", "", none, none, none, ""⟩ =
      [Tier.mem []] :=
  (single_tier_without_zone_config
    ⟨none, none, "", none, none, "", "", "", none, none, none, ""⟩ (Or.inl rfl)).1

/-- Helper for C7: two runners that agree on results and tier updates run
every operation sequence to the same results and final tier. -/
theorem runSeq_eq_of_proj {V : Type} (r r' : Runner V)
    (hp : ∀ (t : Tier V) (c : CacheOp V),
        (r t c).1 = (r' t c).1 ∧ (r t c).2.1 = (r' t c).2.1) :
    ∀ (ops : List (CacheOp V)) (t : Tier V), runSeq r t ops = runSeq r' t ops := by
  intro ops
  induction ops with
  | nil => intro t; rfl
  | cons c cs ih =>
    intro t
    have h1 := (hp t c).1
    have h2 := (hp t c).2
    rcases hr : r t c with ⟨res, t1, es⟩
    rcases hr' : r' t c with ⟨res', t1', es'⟩
    rw [hr, hr'] at h1 h2
    simp only at h1 h2
    subst h1
    subst h2
    simp [runSeq, hr, hr', ih]

/-- Helper for C7: the metrics decorator forwards the result and the tier
update unchanged. -/
theorem withMetrics_proj {V : Type} (r : Runner V) (t : Tier V) (c : CacheOp V) :
    (withMetrics r t c).1 = (r t c).1 ∧ (withMetrics r t c).2.1 = (r t c).2.1 := by
  rcases hr : r t c with ⟨res, t1, es⟩
  simp [withMetrics, hr]

/-- Helper for C7: the tracing decorator forwards the result and the tier
update unchanged. -/
theorem withTracing_proj {V : Type} (r : Runner V) (t : Tier V) (c : CacheOp V) :
    (withTracing r t c).1 = (r t c).1 ∧ (withTracing r t c).2.1 = (r t c).2.1 := by
  rcases hr : r t c with ⟨res, t1, es⟩
  simp [withTracing, hr]

/-- C7.  Decorator transparency: for every operation sequence, wrapping a
tier with the metrics and tracing decorators — in either order, including the
wired order, tracing over metrics — yields exactly the results and final tier
of the unwrapped tier. -/
theorem decorator_transparency {V : Type} (cfg : CacheConfig) (t : Tier V)
    (ops : List (CacheOp V)) :
    runSeq (withTracing (withMetrics (baseRunner cfg))) t ops =
      runSeq (baseRunner cfg) t ops ∧
    runSeq (withMetrics (withTracing (baseRunner cfg))) t ops =
      runSeq (baseRunner cfg) t ops := by
  constructor
  · exact runSeq_eq_of_proj _ _ (fun t' c =>
      ⟨((withTracing_proj (withMetrics (baseRunner cfg)) t' c).1).trans
        ((withMetrics_proj (baseRunner cfg) t' c).1),
       ((withTracing_proj (withMetrics (baseRunner cfg)) t' c).2).trans
        ((withMetrics_proj (baseRunner cfg) t' c).2)⟩) ops t
  · exact runSeq_eq_of_proj _ _ (fun t' c =>
      ⟨((withMetrics_proj (withTracing (baseRunner cfg)) t' c).1).trans
        ((withTracing_proj (baseRunner cfg) t' c).1),
       ((withMetrics_proj (withTracing (baseRunner cfg)) t' c).2).trans
        ((withTracing_proj (baseRunner cfg) t' c).2)⟩) ops t
